import Mathlib

/-!
Verification of the Contrastive Explanation Method implementation
(`src/cem.py`, class `ContrastiveExplanationMethod`).

The program is numeric PyTorch code operating on flattened tensors.  We
shallowly embed it over `ℝ`:

* a tensor of shape `28*28` becomes `Vec n = Fin n → ℝ` (the spatial
  reshapes `view(-1, 1, 28, 28)` / `view(28*28)` are identities on the
  flat vector, so the classifier and autoencoder capabilities are
  modelled directly on flat vectors);
* `torch.norm` is the L2 norm `Real.sqrt (Σ xᵢ²)`;
* the classifier and autoencoder are opaque capabilities, passed as
  functions;
* the gradient `y.grad` produced by `obj.backward()` (reverse-mode
  autodiff) is modelled as an opaque oracle `gradO : ℝ → Vec n → Vec n →
  Vec n` taking the current regularisation constant `c`, the original
  sample and the current `y`.  None of the verified claims depends on
  the value this oracle returns;
* Python exceptions are modelled with `Except`; a method body with no
  `return` statement returns Python `None`, modelled as `Option.none`.
-/

namespace CEM

noncomputable section

/-- A flattened tensor with `n` entries (the code works on `28*28`-entry
vectors; we keep the length abstract). -/
def Vec (n : ℕ) : Type := Fin n → ℝ

instance : Zero (Vec n) := ⟨fun _ => 0⟩
instance : One (Vec n) := ⟨fun _ => 1⟩
instance : Add (Vec n) := ⟨fun a b i => a i + b i⟩
instance : Sub (Vec n) := ⟨fun a b i => a i - b i⟩
instance : Mul (Vec n) := ⟨fun a b i => a i * b i⟩
instance : SMul ℝ (Vec n) := ⟨fun r a i => r * a i⟩

/-- `torch.dot`: the dot product of two flat tensors. -/
def dotV (a b : Vec n) : ℝ := ∑ i, a i * b i

/-- `torch.norm`: the Euclidean (L2) norm. -/
def normV (a : Vec n) : ℝ := Real.sqrt (dotV a a)

/-- Python exceptions that `cem.py` can actually raise, together with
the two error kinds named by the specification's error taxonomy (§7).
The code itself defines no exception classes. -/
inductive PyErr : Type
  /-- `AttributeError`, raised e.g. by `None.train()` (line 49). -/
  | attributeError
  /-- `UnboundLocalError`, raised when `perturbation_loss` is read on
  line 212 after both mode branches of `loss_fn` were skipped. -/
  | unboundLocalError
  /-- The specification's `InvalidConfigurationError` (§7).  Modelled
  from the spec: the code never raises it. -/
  | invalidConfigurationError
  /-- The specification's `DegenerateInputError` (§7).  Modelled from
  the spec: the code never raises it. -/
  | degenerateInputError
  deriving DecidableEq

/-- The two valid search modes. -/
inductive Mode : Type
  | PN
  | PP
  deriving DecidableEq

/-- The string dispatch on `mode` performed by the `if mode == "PN" /
elif mode == "PP"` chains (lines 90-95 and 194-210): any other string
falls through both branches. -/
def parseMode (s : String) : Option Mode :=
  if s = "PN" then some Mode.PN else if s = "PP" then some Mode.PP else none

/-- The fields stored on the `ContrastiveExplanationMethod` object by
`__init__` (lines 48-63). -/
structure CEMObj (n m : ℕ) : Type where
  classifier : Vec n → Vec (m + 1)
  autoencoder : Option (Vec n → Vec n)
  kappa : ℝ
  cInit : ℝ
  c : ℝ
  beta : ℝ
  gamma : ℝ
  featureRange : ℝ × ℝ
  iterations : ℕ
  nSearches : ℕ
  learningRate : ℝ
  reduceDim : ℕ

/-- `__init__` (lines 11-63).  `classifier.train()` and
`autoencoder.train()` are called unconditionally (lines 48-49); when
`autoencoder` is `None` (its declared default), `None.train()` raises
`AttributeError`.  Otherwise every argument is stored on the object
(`self.c_init = const` and also `self.c = const`, lines 53-54;
`self.reduce_dim = int(batch)`, line 63). -/
def initCEM (classifier : Vec n → Vec (m + 1)) (autoencoder : Option (Vec n → Vec n))
    (kappa const beta gamma : ℝ) (featureRange : ℝ × ℝ)
    (iterations nSearches : ℕ) (learningRate : ℝ) (batch : Bool) :
    Except PyErr (CEMObj n m) :=
  match autoencoder with
  | none => Except.error PyErr.attributeError
  | some ae =>
      Except.ok
        { classifier := classifier
          autoencoder := some ae
          kappa := kappa
          cInit := const
          c := const
          beta := beta
          gamma := gamma
          featureRange := featureRange
          iterations := iterations
          nSearches := nSearches
          learningRate := learningRate
          reduceDim := if batch then 1 else 0 }

/-- `shrink` (lines 146-159): three sequential `torch.where` rewrites of
a copy of `z`; a later `where` overwrites an earlier one on the
positions where its condition holds. -/
def shrink (beta : ℝ) (z : Vec n) : Vec n := fun i =>
  let s1 := if |z i| ≤ beta then 0 else z i
  let s2 := if z i > beta then z i - beta else s1
  if z i < -beta then z i + beta else s2

/-- The pre-normalisation projection vector (lines 91 and 94):
`ones - orig_sample` for PN, `orig_sample` (cloned) for PP. -/
def preNorm (md : Mode) (orig : Vec n) : Vec n :=
  match md with
  | Mode.PN => 1 - orig
  | Mode.PP => orig

/-- `self.pert_space` after lines 90-95: the pre-normalisation vector
divided elementwise by its own L2 norm.  The code performs no zero-norm
check and raises nothing: over the floats a zero norm yields NaN
entries; over `ℝ` division by zero yields `0`.  Either way the call
continues with a vector rather than failing. -/
def pertSpace (md : Mode) (orig : Vec n) : Vec n :=
  fun i => preNorm md orig i / normV (preNorm md orig)

/-- `torch.argmax` on a score vector: the first index attaining the
maximum. -/
def argmaxV (v : Fin (m + 1) → ℝ) : Fin (m + 1) :=
  (List.finRange (m + 1)).foldl (fun best i => if v best < v i then i else best) 0

/-- `target_mask` (lines 188-189): one-hot over the argmax class of the
original output (single-instance batch). -/
def targetMask (v : Fin (m + 1) → ℝ) : Fin (m + 1) → ℝ :=
  fun i => if i = argmaxV v then 1 else 0

/-- `torch.max` over a whole tensor: the greatest entry. -/
def vecMax (w : Fin (m + 1) → ℝ) : ℝ :=
  Finset.univ.sup' Finset.univ_nonempty w

/-- `loss_fn` (lines 179-217) for a valid mode: the attack loss term.
`nontarget_mask = ones - target_mask` (line 190);
`torch.max(mask * output)` is the global maximum of the masked product
tensor.  PN classifies `orig_sample + y`, PP classifies `y` alone. -/
def lossFn (o : CEMObj n m) (md : Mode) (orig y : Vec n) : ℝ :=
  let origOut := o.classifier orig
  let tm := targetMask origOut
  let ntm : Fin (m + 1) → ℝ := fun i => 1 - tm i
  match md with
  | Mode.PN =>
      let po := o.classifier (orig + y)
      max (vecMax (fun i => tm i * po i) - vecMax (fun i => ntm i * po i)) (-o.kappa)
  | Mode.PP =>
      let po := o.classifier y
      max (vecMax (fun i => ntm i * po i) - vecMax (fun i => tm i * po i)) (-o.kappa)

/-- `optimisation_obj` (lines 161-177): `c * loss + beta * Σ|y| +
‖y‖²`, plus the autoencoder term only when the autoencoder capability is
present (`callable(self.autoencoder)`, line 172): for PN
`gamma * ‖orig + y - AE(orig + y)‖²`, for PP `gamma * ‖y - AE(y)‖²`. -/
def optimisationObj (o : CEMObj n m) (md : Mode) (c : ℝ) (orig y : Vec n) : ℝ :=
  let base := c * lossFn o md orig y + o.beta * (∑ i, |y i|) + normV y ^ 2
  match o.autoencoder with
  | none => base
  | some ae =>
      match md with
      | Mode.PN => base + o.gamma * normV (orig + y - ae (orig + y)) ^ 2
      | Mode.PP => base + o.gamma * normV (y - ae y) ^ 2

/-- The mutable search values of one `fista` call (spec §3
SearchState + PerturbationState): `self.c`, the working vectors `delta`
and `y`, the ever-growing `self.prev_deltas` list (line 87/135),
`self.best_delta` / `self.best_loss` (`None` / `float("Inf")` initially,
lines 85-86) and `self.loss_reached_zero` (line 83).  `objTrace` is a
specification ghost: the log of `(delta, objective)` pairs at each
objective evaluation, mirroring the per-iteration `print` of the
current loss (line 122) paired with the candidate that line 125 would
record. -/
structure FState (n : ℕ) : Type where
  c : ℝ
  delta : Vec n
  y : Vec n
  prevDeltas : List (Vec n)
  bestDelta : Option (Vec n)
  bestLoss : Option ℝ
  flag : Bool
  objTrace : List (Vec n × ℝ)

/-- `obj < self.best_loss` (line 124), where `best_loss` starts as
`float("Inf")` (modelled as `none`): anything is below infinity. -/
def ltInf (x : ℝ) : Option ℝ → Bool
  | none => true
  | some b => decide (x < b)

/-- The search values at the beginning of a `fista` call (lines
80-87).  The `perturb_init` zeros tensor created on line 80 is never
referenced again, and the dead stores to `self.loss` (lines 121 and
215) are never read; neither is modelled. -/
def initState (o : CEMObj n m) : FState n :=
  { c := o.c
    delta := 0
    y := 0
    prevDeltas := []
    bestDelta := none
    bestLoss := none
    flag := false
    objTrace := [] }

/-- One iteration of the inner loop (lines 106-139), at loop counter
`i` (the Python loop runs `i = 1, …, iterations`):

1. evaluate the objective at the current `y` (line 120); inside this
   evaluation `loss_fn` sets `loss_reached_zero` when the attack loss
   equals exactly `-kappa` (lines 212-213);
2. record `delta` and the objective as the new best when the objective
   is strictly below the best seen so far (lines 124-126);
3. append the current `delta` to `prev_deltas` (line 135);
4. `delta = p · shrink(y - lr * grad) * p` (line 138);
5. `y = p · (delta + i/(i+3) * (delta - prev_deltas[-1])) * p`
   (line 139), where `prev_deltas[-1]` is the entry just appended. -/
def innerStep (o : CEMObj n m) (md : Mode) (p : Vec n)
    (gradO : ℝ → Vec n → Vec n → Vec n) (orig : Vec n)
    (st : FState n) (i : ℕ) : FState n :=
  let lossVal := lossFn o md orig st.y
  let flagNew := st.flag || (if lossVal = -o.kappa then true else false)
  let obj := optimisationObj o md st.c orig st.y
  let better := ltInf obj st.bestLoss
  let bestDeltaNew := if better then some st.delta else st.bestDelta
  let bestLossNew := if better then some obj else st.bestLoss
  let prevNew := st.prevDeltas ++ [st.delta]
  let g := gradO st.c orig st.y
  let deltaNew := dotV p (shrink o.beta (st.y - o.learningRate • g)) • p
  let yNew :=
    dotV p (deltaNew + ((i : ℝ) / ((i : ℝ) + 3)) • (deltaNew - prevNew.getLastD 0)) • p
  { c := st.c
    delta := deltaNew
    y := yNew
    prevDeltas := prevNew
    bestDelta := bestDeltaNew
    bestLoss := bestLossNew
    flag := flagNew
    objTrace := st.objTrace ++ [(st.delta, obj)] }

/-- The first `j` iterations of the inner loop: iteration `k + 1` runs
`innerStep` at loop counter `k + 1`, matching
`for i in range(1, iterations + 1)` (line 106). -/
def iterRun (o : CEMObj n m) (md : Mode) (p : Vec n)
    (gradO : ℝ → Vec n → Vec n → Vec n) (orig : Vec n)
    (st0 : FState n) : ℕ → FState n
  | 0 => st0
  | j + 1 => innerStep o md p gradO orig (iterRun o md p gradO orig st0 j) (j + 1)

/-- The full inner loop of one search (lines 106-139): `iterations`
iterations against the projection vector `pert_space`. -/
def innerLoop (o : CEMObj n m) (md : Mode)
    (gradO : ℝ → Vec n → Vec n → Vec n) (orig : Vec n)
    (st : FState n) : FState n :=
  iterRun o md (pertSpace md orig) gradO orig st o.iterations

/-- The per-search re-initialisation (lines 100-104): `self.c` is reset
to `c_init` and fresh zero `delta`, `y` are created.  Note that
`loss_reached_zero`, `best_delta`, `best_loss` and `prev_deltas` are
not touched. -/
def preamble (o : CEMObj n m) (st : FState n) : FState n :=
  { st with c := o.cInit, delta := 0, y := 0 }

/-- One outer search (one body of `for s in range(self.n_searches)`,
lines 98-144): re-initialise, run the inner loop `inner`, then update
`c` from `loss_reached_zero` (lines 141-144). -/
def restartStep (o : CEMObj n m) (inner : FState n → FState n)
    (st : FState n) : FState n :=
  let st2 := inner (preamble o st)
  { st2 with c := if st2.flag then (st2.c + o.cInit) / 2 else st2.c * 10 }

/-- The first `s` outer searches. -/
def runRestarts (o : CEMObj n m) (inner : FState n → FState n)
    (st0 : FState n) : ℕ → FState n
  | 0 => st0
  | s + 1 => restartStep o inner (runRestarts o inner st0 s)

/-- `fista` (lines 65-144) for a valid mode: `n_searches` outer
searches from the freshly initialised search values. -/
def fistaCore (o : CEMObj n m) (gradO : ℝ → Vec n → Vec n → Vec n)
    (orig : Vec n) (md : Mode) : FState n :=
  runRestarts o (innerLoop o md gradO orig) (initState o) o.nSearches

/-- The search values right after the re-initialisation at the top of
outer search number `s` (0-based), i.e. after lines 100-104 of that
search have run. -/
def startOfRestart (o : CEMObj n m) (gradO : ℝ → Vec n → Vec n → Vec n)
    (orig : Vec n) (md : Mode) (s : ℕ) : FState n :=
  preamble o (runRestarts o (innerLoop o md gradO orig) (initState o) s)

/-- The outer searches when the inner loop body never executes
(`iterations = 0`): only lines 100-104 and 141-144 run. -/
def emptyRun (o : CEMObj n m) : FState n :=
  runRestarts o id (initState o) o.nSearches

/-- `fista` as invoked, with `mode` the raw string argument (default
`"PN"`).  For a recognised mode the call runs `fistaCore`.  For any
other string, lines 90-95 assign nothing and both branches of `loss_fn`
are skipped, so the first executed iteration raises `UnboundLocalError`
when `perturbation_loss` is read on line 212; if no iteration executes
(`n_searches = 0` or `iterations = 0`) the call completes without any
error.  The method body contains no `return` statement, so the value
returned to the caller is Python `None`: the second component, of the
specification's `Result` type (best perturbation and objective), is
always `none`. -/
def fistaPy (o : CEMObj n m) (gradO : ℝ → Vec n → Vec n → Vec n)
    (orig : Vec n) (mode : String) :
    Except PyErr (FState n × Option (Vec n × ℝ)) :=
  match parseMode mode with
  | some md => Except.ok (fistaCore o gradO orig md, none)
  | none =>
      if o.nSearches = 0 ∨ o.iterations = 0 then Except.ok (emptyRun o, none)
      else Except.error PyErr.unboundLocalError

/-- The outer loop of lines 98-144 restricted to the fields it
threads between searches, `(self.c, self.loss_reached_zero)`, with each
search's inner loop abstracted by one boolean: whether that search's
iterations themselves set `loss_reached_zero` (lines 212-213).  Mirrors
the source exactly: `c` is reset to `c_init` at the top of every search
(line 101), the flag is only ever or-ed in (it is set once to `False`
before all searches, line 83, and never cleared), and after the search
`c` becomes `(c + c_init)/2` when the flag is set and `c * 10` otherwise
(lines 141-144). -/
def cStep (cInit : ℝ) (st : ℝ × Bool) (b : Bool) : ℝ × Bool :=
  let flag1 := st.2 || b
  let c1 := cInit
  (if flag1 then (c1 + cInit) / 2 else c1 * 10, flag1)

/-- The value of `self.c` after each successive outer search, given the
per-search outcome bits. -/
def cVals (cInit : ℝ) (st : ℝ × Bool) : List Bool → List ℝ
  | [] => []
  | b :: bs =>
      let st1 := cStep cInit st b
      st1.1 :: cVals cInit st1 bs

/-- The momentum update as worded by the specification (§4.5 step 4):
`project(delta_new + (step/(step+3)) * (delta_new - delta_prev))`, with
`step` counting iterations from 0.  Stated here only to be compared
with the update the code performs. -/
def momSpec (step : ℕ) (p deltaNew deltaPrev : Vec n) : Vec n :=
  dotV p (deltaNew + ((step : ℝ) / ((step : ℝ) + 3)) • (deltaNew - deltaPrev)) • p

/-- `(bd, bl)` is the best-so-far pair for the evaluation log `l`:
while nothing has been evaluated both are their initial `None` /
`float("Inf")`; afterwards `bl` is the least objective value in the log
and `bd` the candidate recorded with it. -/
def tracksBest (bd : Option (Vec n)) (bl : Option ℝ) (l : List (Vec n × ℝ)) : Prop :=
  match bl with
  | none => l = [] ∧ bd = none
  | some v => (∃ d, bd = some d ∧ (d, v) ∈ l) ∧ ∀ q ∈ l, v ≤ q.2

/-- A concrete one-pixel, one-class instance used to evaluate the
search on explicit inputs: a constant classifier with score `-1`,
no autoencoder term, `kappa = 0`, `const = 10`, `beta = 1/10`,
`gamma = 0`, one inner iteration and two outer searches. -/
def tinyObj : CEMObj 1 0 :=
  { classifier := fun _ => fun _ => -1
    autoencoder := none
    kappa := 0
    cInit := 10
    c := 10
    beta := 1 / 10
    gamma := 0
    featureRange := (-(10 : ℝ) ^ 10, (10 : ℝ) ^ 10)
    iterations := 1
    nSearches := 2
    learningRate := 1
    reduceDim := 0 }

/-- A gradient oracle that always returns the zero vector. -/
def gradZero : ℝ → Vec 1 → Vec 1 → Vec 1 := fun _ _ _ => 0

/-- A gradient oracle that always returns the constant `-1` vector. -/
def gradNeg : ℝ → Vec 1 → Vec 1 → Vec 1 := fun _ _ _ => fun _ => -1

/-- The all-ones one-pixel sample, degenerate for PN:
`ones - orig_sample = 0`. -/
def ones1 : Vec 1 := 1

/-- The search values at the top of the first search of a `fista` call
on `tinyObj`. -/
def startTiny : FState 1 := preamble tinyObj (initState tinyObj)

/-- A concrete three-entry vector with one entry in each shrinkage
regime for threshold `1/2`. -/
def zW : Vec 3 := fun i => if i = 0 then 1 else if i = 1 then -2 else 0

end

end CEM

namespace CEM

/-! ### Basic lemmas about the embedding -/

@[simp] theorem zero_apply (i : Fin n) : (0 : Vec n) i = 0 := rfl

@[simp] theorem one_apply (i : Fin n) : (1 : Vec n) i = 1 := rfl

@[simp] theorem add_apply (a b : Vec n) (i : Fin n) : (a + b) i = a i + b i := rfl

@[simp] theorem sub_apply (a b : Vec n) (i : Fin n) : (a - b) i = a i - b i := rfl

@[simp] theorem smul_apply (r : ℝ) (a : Vec n) (i : Fin n) : (r • a) i = r * a i := rfl

theorem getLastD_snoc (l : List α) (a d : α) : (l ++ [a]).getLastD d = a := by
  induction l generalizing d with
  | nil => rfl
  | cons x xs ih => rw [List.cons_append, List.getLastD_cons]; exact ih x

theorem dotV_fin1 (a b : Vec 1) : dotV a b = a 0 * b 0 := by
  simp [dotV]

theorem dotV_self_nonneg (a : Vec n) : 0 ≤ dotV a a :=
  Finset.sum_nonneg fun i _ => mul_self_nonneg (a i)

theorem argmaxV_fin1 (v : Fin 1 → ℝ) : argmaxV v = 0 :=
  Fin.eq_zero _

theorem vecMax_fin1 (w : Fin 1 → ℝ) : vecMax w = w 0 := by
  have h : ∀ i : Fin 1, w i = w 0 := fun i => congrArg w (Fin.eq_zero i)
  refine le_antisymm (Finset.sup'_le _ _ fun i _ => le_of_eq (h i)) ?_
  exact Finset.le_sup' _ (Finset.mem_univ 0)

/-- When the autoencoder capability is absent (not callable), the
objective is exactly the three base terms: the reconstruction term is
not merely zero-weighted, it is never added (lines 166-176). -/
theorem optimisationObj_no_autoencoder (o : CEMObj n m) (md : Mode) (c : ℝ)
    (orig y : Vec n) (h : o.autoencoder = none) :
    optimisationObj o md c orig y
      = c * lossFn o md orig y + o.beta * (∑ i, |y i|) + normV y ^ 2 := by
  unfold optimisationObj
  rw [h]

/-! ### C2: construction without the autoencoder capability -/

/-- C2 (code evaluated at the failing input): constructing the method
with `autoencoder = None` — the declared default, and the spec's "valid
absence" configuration — raises `AttributeError` from the unconditional
`autoencoder.train()` on line 49, for every choice of the remaining
arguments.  The guard `callable(self.autoencoder)` on line 172 would
have omitted the reconstruction term, but the constructor can never be
passed an absent autoencoder without crashing. -/
theorem initCEM_none_attributeError (classifier : Vec n → Vec (m + 1))
    (kappa const beta gamma : ℝ) (featureRange : ℝ × ℝ)
    (iterations nSearches : ℕ) (learningRate : ℝ) (batch : Bool) :
    initCEM classifier none kappa const beta gamma featureRange iterations nSearches
      learningRate batch = Except.error PyErr.attributeError := rfl

/-! ### C8: the shrinkage operator -/

/-- C8: for threshold `beta ≥ 0`, `shrink` is exactly the elementwise
soft-thresholding map — `0` where `|z| ≤ beta`, `z - beta` where
`z > beta`, `z + beta` where `z < -beta`; consequently it never
increases any entry's magnitude, and it sends `z` to the zero vector
whenever `|z| ≤ beta` holds elementwise. -/
theorem shrink_soft_threshold (beta : ℝ) (z : Vec n) (hb : 0 ≤ beta) :
    (∀ i, shrink beta z i =
      if |z i| ≤ beta then 0 else if z i > beta then z i - beta else z i + beta)
    ∧ (∀ i, |shrink beta z i| ≤ |z i|)
    ∧ ((∀ i, |z i| ≤ beta) → shrink beta z = 0) := by
  have key : ∀ i, shrink beta z i =
      if |z i| ≤ beta then 0 else if z i > beta then z i - beta else z i + beta := by
    intro i
    rcases le_or_lt |z i| beta with h1 | h1
    · have h2 : ¬ beta < z i := not_lt.mpr (abs_le.mp h1).2
      have h3 : ¬ z i < -beta := not_lt.mpr (abs_le.mp h1).1
      simp only [shrink, gt_iff_lt, if_pos h1, if_neg h2, if_neg h3]
    · have h0 : ¬ |z i| ≤ beta := not_le.mpr h1
      rcases lt_abs.mp h1 with h2 | h2
      · have h3 : ¬ z i < -beta := not_lt.mpr (by linarith)
        simp only [shrink, gt_iff_lt, if_pos h2, if_neg h0, if_neg h3]
      · have h2' : z i < -beta := by linarith
        have h4 : ¬ beta < z i := not_lt.mpr (by linarith)
        simp only [shrink, gt_iff_lt, if_pos h2', if_neg h0, if_neg h4]
  refine ⟨key, fun i => ?_, fun h => ?_⟩
  · rw [key i]
    rcases le_or_lt |z i| beta with h1 | h1
    · simp [h1, abs_nonneg]
    · have h0 : ¬ |z i| ≤ beta := not_le.mpr h1
      rcases lt_abs.mp h1 with h2 | h2
      · have hz : 0 < z i := lt_of_le_of_lt hb h2
        rw [if_neg h0, if_pos h2, abs_of_nonneg (by linarith : (0:ℝ) ≤ z i - beta),
          abs_of_pos hz]
        linarith
      · have h2' : z i < -beta := by linarith
        have h4 : ¬ z i > beta := not_lt.mpr (by linarith)
        rw [if_neg h0, if_neg h4, abs_of_nonpos (by linarith : z i + beta ≤ 0),
          abs_of_neg (by linarith : z i < 0)]
        linarith
  · funext i
    rw [key i, if_pos (h i)]
    rfl

/-- Witness for `shrink_soft_threshold`: threshold `1/2` and the
concrete vector `zW = (1, -2, 0)`, which has one entry in each
regime. -/
theorem shrink_soft_threshold_witness :
    (0:ℝ) ≤ 1/2
    ∧ ((∀ i, shrink (1/2) zW i =
        if |zW i| ≤ 1/2 then 0 else if zW i > 1/2 then zW i - 1/2 else zW i + 1/2)
      ∧ (∀ i, |shrink (1/2) zW i| ≤ |zW i|)
      ∧ ((∀ i, |zW i| ≤ 1/2) → shrink (1/2) zW = 0)) :=
  ⟨by norm_num, shrink_soft_threshold (1/2) zW (by norm_num)⟩

/-! ### C3: the projection subspace -/

/-- C3 (amended): whenever the pre-normalisation vector
(`ones - orig_sample` for PN, `orig_sample` for PP) has nonzero norm,
the projection vector `pert_space` has unit norm.  The degenerate
zero-norm case raises no error; see `fista_no_degenerate_error`. -/
theorem pertSpace_unit_norm (md : Mode) (orig : Vec n)
    (h : normV (preNorm md orig) ≠ 0) : normV (pertSpace md orig) = 1 := by
  have hnn : 0 ≤ dotV (preNorm md orig) (preNorm md orig) := dotV_self_nonneg _
  have hcc : normV (preNorm md orig) * normV (preNorm md orig)
      = ∑ i, preNorm md orig i * preNorm md orig i := Real.mul_self_sqrt hnn
  have hdot : dotV (pertSpace md orig) (pertSpace md orig) = 1 := by
    simp only [pertSpace, dotV, div_mul_div_comm]
    rw [← Finset.sum_div, ← hcc]
    exact div_self (mul_ne_zero h h)
  show Real.sqrt (dotV (pertSpace md orig) (pertSpace md orig)) = 1
  rw [hdot, Real.sqrt_one]

/-- The one-pixel zero sample is non-degenerate for PN: its
pre-normalisation vector has norm 1. -/
theorem normV_preNorm_zero1 : normV (preNorm Mode.PN (0 : Vec 1)) = 1 := by
  show Real.sqrt (dotV (preNorm Mode.PN (0 : Vec 1)) (preNorm Mode.PN (0 : Vec 1))) = 1
  rw [dotV_fin1]
  simp [preNorm, Real.sqrt_one]

/-- Witness for `pertSpace_unit_norm`: the one-pixel zero sample under
PN. -/
theorem pertSpace_unit_norm_witness :
    normV (preNorm Mode.PN (0 : Vec 1)) ≠ 0
    ∧ normV (pertSpace Mode.PN (0 : Vec 1)) = 1 :=
  ⟨by rw [normV_preNorm_zero1]; norm_num,
    pertSpace_unit_norm Mode.PN 0 (by rw [normV_preNorm_zero1]; norm_num)⟩

/-- C3 counterexample: the all-ones one-pixel PN sample is degenerate —
its pre-normalisation vector has zero norm — yet the explanation call
completes and produces a state, raising nothing (in particular no
`DegenerateInputError`): lines 89-95 have no error path, the zero norm
is divided by and the search continues. -/
theorem fista_no_degenerate_error :
    normV (preNorm Mode.PN ones1) = 0
    ∧ ∃ st, fistaPy tinyObj gradZero ones1 "PN" = Except.ok st := by
  constructor
  · show Real.sqrt (dotV (preNorm Mode.PN ones1) (preNorm Mode.PN ones1)) = 0
    rw [dotV_fin1]
    simp [preNorm, ones1, Real.sqrt_zero]
  · exact ⟨_, rfl⟩

/-! ### Evaluation of the tiny concrete instance -/

theorem shrink_apply_gt (beta : ℝ) (z : Vec n) (i : Fin n)
    (h0 : ¬ |z i| ≤ beta) (h1 : beta < z i) (h2 : ¬ z i < -beta) :
    shrink beta z i = z i - beta := by
  simp only [shrink, gt_iff_lt, if_pos h1, if_neg h0, if_neg h2]

theorem pertSpace_PN_zero1 : pertSpace Mode.PN (0 : Vec 1) = 1 := by
  funext i
  show preNorm Mode.PN (0 : Vec 1) i / normV (preNorm Mode.PN (0 : Vec 1)) = (1 : Vec 1) i
  rw [normV_preNorm_zero1]
  simp [preNorm]

theorem lossFn_tiny : lossFn tinyObj Mode.PN 0 0 = 0 := by
  simp [lossFn, vecMax_fin1, targetMask, argmaxV_fin1, tinyObj, max_def]

/-- The first inner iteration on the tiny instance with the constant
`-1` gradient oracle: `y - lr * grad = 1`, `shrink` maps it to `9/10`,
and the projection keeps it, so `delta` becomes `(9/10) • p`. -/
theorem tiny_step_delta :
    (iterRun tinyObj Mode.PN (pertSpace Mode.PN 0) gradNeg 0 startTiny 1).delta
      = (9/10 : ℝ) • (1 : Vec 1) := by
  have harg : startTiny.y - tinyObj.learningRate • gradNeg startTiny.c 0 startTiny.y
      = (1 : Vec 1) := by
    funext i
    show (0 : Vec 1) i - tinyObj.learningRate * gradNeg startTiny.c 0 startTiny.y i = 1
    norm_num [gradNeg, tinyObj]
  have hshr : shrink tinyObj.beta (1 : Vec 1) = (9/10 : ℝ) • (1 : Vec 1) := by
    funext i
    show shrink (1/10) (1 : Vec 1) i = ((9/10 : ℝ) • (1 : Vec 1)) i
    rw [shrink_apply_gt (1/10) (1 : Vec 1) i (by norm_num) (by norm_num) (by norm_num)]
    norm_num
  show dotV (pertSpace Mode.PN 0)
      (shrink tinyObj.beta
        (startTiny.y - tinyObj.learningRate • gradNeg startTiny.c 0 startTiny.y))
      • pertSpace Mode.PN 0 = (9/10 : ℝ) • (1 : Vec 1)
  rw [pertSpace_PN_zero1, harg, hshr]
  funext i
  rw [dotV_fin1]
  norm_num

/-- The `y` produced by the first inner iteration of the tiny instance:
the code's momentum coefficient at the first iteration is
`1/(1+3) = 1/4`, so `y = (9/10)(1 + 1/4) = 9/8`. -/
theorem tiny_step_y :
    (iterRun tinyObj Mode.PN (pertSpace Mode.PN 0) gradNeg 0 startTiny 1).y 0 = 9/8 := by
  show (dotV (pertSpace Mode.PN 0)
      ((iterRun tinyObj Mode.PN (pertSpace Mode.PN 0) gradNeg 0 startTiny 1).delta
        + (((1 : ℕ) : ℝ) / (((1 : ℕ) : ℝ) + 3)) •
          ((iterRun tinyObj Mode.PN (pertSpace Mode.PN 0) gradNeg 0 startTiny 1).delta
            - (startTiny.prevDeltas ++ [startTiny.delta]).getLastD 0))
      • pertSpace Mode.PN 0) 0 = 9/8
  rw [tiny_step_delta, getLastD_snoc, pertSpace_PN_zero1]
  have hd : startTiny.delta = (0 : Vec 1) := rfl
  rw [hd, dotV_fin1]
  norm_num

/-! ### C6: the per-restart re-initialisation -/

/-- C6 (amended): at the start of every one of the outer searches, `c`
has been reset to `const_init` and the perturbation vectors `delta` and
`y` are zero (lines 100-104); the margin-reached flag, however, is
simply carried over from the preceding searches — the re-initialisation
does not touch it. -/
theorem restart_reinitialisation (o : CEMObj n m) (gradO : ℝ → Vec n → Vec n → Vec n)
    (orig : Vec n) (md : Mode) (s : ℕ) :
    (startOfRestart o gradO orig md s).c = o.cInit
    ∧ (startOfRestart o gradO orig md s).delta = 0
    ∧ (startOfRestart o gradO orig md s).y = 0
    ∧ (startOfRestart o gradO orig md s).flag
        = (runRestarts o (innerLoop o md gradO orig) (initState o) s).flag :=
  ⟨rfl, rfl, rfl, rfl⟩

/-- C6 counterexample: on the tiny instance the first search reaches
the margin (the attack loss is exactly `-kappa = 0` at `y = 0`), and the
flag is still set at the start of the second search — the claim that the
margin-reached flag is clear at the start of every restart is false:
`self.loss_reached_zero = False` runs once (line 83), before the search
loop, and is never cleared again. -/
theorem flag_not_cleared_at_restart :
    (startOfRestart tinyObj gradZero (0 : Vec 1) Mode.PN 1).flag = true := by
  show (innerStep tinyObj Mode.PN (pertSpace Mode.PN 0) gradZero 0
      (preamble tinyObj (initState tinyObj)) 1).flag = true
  show (false || (if lossFn tinyObj Mode.PN 0 0 = -tinyObj.kappa then true else false)) = true
  rw [lossFn_tiny]
  norm_num [tinyObj]

/-! ### C7: the momentum update -/

/-- C7 (amended): in every inner-loop iteration the momentum update is
`y = project(delta_new + (i/(i+3)) * (delta_new - delta_prev))`, where
`delta_prev` is the `delta` produced by the previous iteration (the
starting `delta` for the first one) — but the counter `i` runs
`1, …, iterations` (line 106), so iteration number `k+1` uses the
coefficient `(k+1)/((k+1)+3)`; in particular the first iteration uses
`1/4`, not `0`. -/
theorem momentum_one_based (o : CEMObj n m) (md : Mode) (p : Vec n)
    (gradO : ℝ → Vec n → Vec n → Vec n) (orig : Vec n) (st0 : FState n) (k : ℕ) :
    (iterRun o md p gradO orig st0 (k + 1)).y
      = momSpec (k + 1) p (iterRun o md p gradO orig st0 (k + 1)).delta
          (iterRun o md p gradO orig st0 k).delta := by
  simp only [iterRun, innerStep, momSpec, getLastD_snoc]

/-- C7 counterexample: on the tiny instance, the `y` actually produced
by the first inner iteration (`9/8`) differs from the value predicted by
the claim's formula with `step` counting from 0 (`momSpec 0` applied to
the iteration's `delta` and the zero previous `delta` gives `9/10`,
since `0/(0+3) = 0`). -/
theorem momentum_not_zero_based :
    (iterRun tinyObj Mode.PN (pertSpace Mode.PN 0) gradNeg 0 startTiny 1).y 0
      ≠ momSpec 0 (pertSpace Mode.PN 0)
          ((iterRun tinyObj Mode.PN (pertSpace Mode.PN 0) gradNeg 0 startTiny 1).delta)
          0 0 := by
  rw [tiny_step_y]
  have hR : momSpec 0 (pertSpace Mode.PN 0)
      ((iterRun tinyObj Mode.PN (pertSpace Mode.PN 0) gradNeg 0 startTiny 1).delta)
      0 0 = 9/10 := by
    rw [momSpec, tiny_step_delta, pertSpace_PN_zero1, dotV_fin1]
    norm_num
  rw [hR]
  norm_num

/-! ### C5: the adaptive c schedule -/

theorem innerStep_c (o : CEMObj n m) (md : Mode) (p : Vec n)
    (gradO : ℝ → Vec n → Vec n → Vec n) (orig : Vec n) (st : FState n) (i : ℕ) :
    (innerStep o md p gradO orig st i).c = st.c := rfl

theorem iterRun_c (o : CEMObj n m) (md : Mode) (p : Vec n)
    (gradO : ℝ → Vec n → Vec n → Vec n) (orig : Vec n) (st0 : FState n) (j : ℕ) :
    (iterRun o md p gradO orig st0 j).c = st0.c := by
  induction j with
  | zero => rfl
  | succ j ih => show (iterRun o md p gradO orig st0 j).c = st0.c; exact ih

/-- The inner loop never touches `c`, so during every search it sits at
the `c_init` installed by line 101. -/
theorem innerLoop_preamble_c (o : CEMObj n m) (md : Mode)
    (gradO : ℝ → Vec n → Vec n → Vec n) (orig : Vec n) (st : FState n) :
    (innerLoop o md gradO orig (preamble o st)).c = o.cInit := by
  show (iterRun o md (pertSpace md orig) gradO orig (preamble o st) o.iterations).c = o.cInit
  rw [iterRun_c]
  rfl

/-- Bridge between the full model and the `(c, flag)` restriction: one
outer search transforms `(c, flag)` exactly by `cStep`, where `b` says
whether this search's own iterations set the flag on top of the carried
flag and the inner loop leaves `c` at `c_init`. -/
theorem restartStep_cStep (o : CEMObj n m) (inner : FState n → FState n)
    (st : FState n) (b : Bool)
    (hflag : (inner (preamble o st)).flag = (st.flag || b))
    (hc : (inner (preamble o st)).c = o.cInit) :
    ((restartStep o inner st).c, (restartStep o inner st).flag)
      = cStep o.cInit (st.c, st.flag) b := by
  show (if (inner (preamble o st)).flag then ((inner (preamble o st)).c + o.cInit) / 2
        else (inner (preamble o st)).c * 10, (inner (preamble o st)).flag)
      = cStep o.cInit (st.c, st.flag) b
  rw [hflag, hc]
  rfl

/-- C5 (amended): because `c` is reset to `const_init` at the top of
every search (line 101) and the margin flag is never cleared between
searches (line 83 runs once), the value of `c` after the `k`-th search
is `const_init` when any search so far (the carried flag included)
succeeded, and `10 * const_init` otherwise — independent of the
claimed cumulative `c0 → c0 → 10·c0 → 5.5·c0` evolution. -/
theorem c_after_each_restart (cInit c0 : ℝ) (fl : Bool) (outs : List Bool) (k : ℕ)
    (hk : k < outs.length) :
    (cVals cInit (c0, fl) outs)[k]?
      = some (if fl || (outs.take (k + 1)).any id then cInit else 10 * cInit) := by
  induction outs generalizing c0 fl k with
  | nil => simp at hk
  | cons b bs ih =>
      cases k with
      | zero =>
          simp only [cVals, cStep, List.getElem?_cons_zero, List.take_succ_cons,
            List.take_zero, List.any_cons, List.any_nil, Bool.or_false, id_eq]
          by_cases hb : (fl || b) = true
          · rw [if_pos hb, if_pos hb]
            exact congrArg some (by ring)
          · rw [if_neg hb, if_neg hb]
            exact congrArg some (by ring)
      | succ k =>
          simp only [cVals, List.getElem?_cons_succ]
          rw [show cStep cInit (c0, fl) b = ((cStep cInit (c0, fl) b).1, fl || b) from rfl]
          rw [ih (cStep cInit (c0, fl) b).1 (fl || b) k (by simpa using hk)]
          have hcond : ((fl || b) || (bs.take (k + 1)).any id)
              = (fl || ((b :: bs).take (k + 1 + 1)).any id) := by
            simp [List.take_succ_cons, List.any_cons, Bool.or_assoc]
          rw [hcond]

/-- Witness for `c_after_each_restart`: the second entry of the
schedule for outcomes [success, failure, success] starting from
`c0 = const_init = 10`. -/
theorem c_after_each_restart_witness :
    1 < ([true, false, true] : List Bool).length
    ∧ (cVals 10 (10, false) [true, false, true])[1]?
        = some (if false || ([true, false, true].take (1 + 1)).any id then 10 else 10 * 10) :=
  ⟨by norm_num, c_after_each_restart 10 10 false [true, false, true] 1 (by norm_num)⟩

/-- C5 counterexample: for the synthetic outcome sequence
[success, failure, success] from `c0 = const_init = 10`, the code's `c`
values after the three searches are `[10, 10, 10]` — not the claimed
`[c0, 10·c0, 5.5·c0] = [10, 100, 55]`: the failing second search still
takes the success branch because the flag set by the first search was
never cleared, and the reset at line 101 erases any escalation before
it can compound. -/
theorem c_schedule_counterexample :
    cVals 10 (10, false) [true, false, true] = [10, 10, 10]
    ∧ cVals 10 (10, false) [true, false, true] ≠ ([10, 100, 55] : List ℝ) := by
  have h : cVals (10 : ℝ) (10, false) [true, false, true] = [10, 10, 10] := by
    norm_num [cVals, cStep]
  refine ⟨h, ?_⟩
  rw [h]
  intro hc
  have h2 : (10 : ℝ) = 100 := (List.cons.inj ((List.cons.inj hc).2)).1
  norm_num at h2

/-! ### C9: the one-dimensional search subspace -/

/-- C9: after every inner-loop iteration, both `delta` and `y` are
scalar multiples of the projection vector `pert_space`, because each is
recomputed as `(p · raw_update) * p` (lines 138-139): the whole search
lives in the span of `p`. -/
theorem delta_y_in_span (o : CEMObj n m) (md : Mode)
    (gradO : ℝ → Vec n → Vec n → Vec n) (orig : Vec n) (st0 : FState n) (k : ℕ) :
    ∃ a b : ℝ,
      (iterRun o md (pertSpace md orig) gradO orig st0 (k + 1)).delta
          = a • pertSpace md orig
      ∧ (iterRun o md (pertSpace md orig) gradO orig st0 (k + 1)).y
          = b • pertSpace md orig :=
  ⟨_, _, rfl, rfl⟩

/-! ### C1: best tracking across restarts, and the return value -/

theorem tracksBest_innerStep (o : CEMObj n m) (md : Mode) (p : Vec n)
    (gradO : ℝ → Vec n → Vec n → Vec n) (orig : Vec n) (st : FState n) (i : ℕ)
    (h : tracksBest st.bestDelta st.bestLoss st.objTrace) :
    tracksBest (innerStep o md p gradO orig st i).bestDelta
      (innerStep o md p gradO orig st i).bestLoss
      (innerStep o md p gradO orig st i).objTrace := by
  have hbd : (innerStep o md p gradO orig st i).bestDelta
      = if ltInf (optimisationObj o md st.c orig st.y) st.bestLoss then some st.delta
        else st.bestDelta := rfl
  have hbl : (innerStep o md p gradO orig st i).bestLoss
      = if ltInf (optimisationObj o md st.c orig st.y) st.bestLoss
        then some (optimisationObj o md st.c orig st.y) else st.bestLoss := rfl
  have htr : (innerStep o md p gradO orig st i).objTrace
      = st.objTrace ++ [(st.delta, optimisationObj o md st.c orig st.y)] := rfl
  rw [hbd, hbl, htr]
  cases hL : st.bestLoss with
  | none =>
      simp only [tracksBest, hL] at h
      have hcond : ltInf (optimisationObj o md st.c orig st.y) none = true := rfl
      rw [if_pos hcond, if_pos hcond, h.1, List.nil_append]
      refine ⟨⟨st.delta, rfl, List.mem_singleton_self _⟩, ?_⟩
      intro q hq
      rw [List.mem_singleton] at hq
      subst hq
      exact le_refl _
  | some v =>
      simp only [tracksBest, hL] at h
      obtain ⟨⟨d, hd, hdm⟩, hub⟩ := h
      by_cases hlt : optimisationObj o md st.c orig st.y < v
      · have hcond : ltInf (optimisationObj o md st.c orig st.y) (some v) = true := by
          simp only [ltInf, decide_eq_true_eq]
          exact hlt
        rw [if_pos hcond, if_pos hcond]
        refine ⟨⟨st.delta, rfl, List.mem_append_right _ (List.mem_singleton_self _)⟩, ?_⟩
        intro q hq
        rcases List.mem_append.mp hq with hq | hq
        · exact le_trans (le_of_lt hlt) (hub q hq)
        · rw [List.mem_singleton] at hq
          subst hq
          exact le_refl _
      · have hcond : ¬ ltInf (optimisationObj o md st.c orig st.y) (some v) = true := by
          simp only [ltInf, decide_eq_true_eq]
          exact hlt
        rw [if_neg hcond, if_neg hcond]
        refine ⟨⟨d, hd, List.mem_append_left _ hdm⟩, ?_⟩
        intro q hq
        rcases List.mem_append.mp hq with hq | hq
        · exact hub q hq
        · rw [List.mem_singleton] at hq
          subst hq
          exact le_of_not_lt hlt

theorem tracksBest_iterRun (o : CEMObj n m) (md : Mode) (p : Vec n)
    (gradO : ℝ → Vec n → Vec n → Vec n) (orig : Vec n) (st0 : FState n) (j : ℕ)
    (h : tracksBest st0.bestDelta st0.bestLoss st0.objTrace) :
    tracksBest (iterRun o md p gradO orig st0 j).bestDelta
      (iterRun o md p gradO orig st0 j).bestLoss
      (iterRun o md p gradO orig st0 j).objTrace := by
  induction j with
  | zero => exact h
  | succ j ih => exact tracksBest_innerStep o md p gradO orig _ _ ih

theorem tracksBest_runRestarts (o : CEMObj n m) (md : Mode)
    (gradO : ℝ → Vec n → Vec n → Vec n) (orig : Vec n) (st0 : FState n) (s : ℕ)
    (h : tracksBest st0.bestDelta st0.bestLoss st0.objTrace) :
    tracksBest (runRestarts o (innerLoop o md gradO orig) st0 s).bestDelta
      (runRestarts o (innerLoop o md gradO orig) st0 s).bestLoss
      (runRestarts o (innerLoop o md gradO orig) st0 s).objTrace := by
  induction s with
  | zero => exact h
  | succ s ih =>
      exact tracksBest_iterRun o md (pertSpace md orig) gradO orig
        (preamble o (runRestarts o (innerLoop o md gradO orig) st0 s)) o.iterations ih

/-- C1 (amended): once all `n_searches` restarts complete, the
`best_delta`/`best_loss` pair stored on the object holds the least
objective value ever evaluated across the whole call — every restart
included, not just the final one — together with the candidate recorded
at that evaluation (lines 85-86 initialise the pair once, before the
search loop; lines 124-126 only ever improve it).  The pair is
available to the caller in the state; the function itself returns no
value (see `fista_returns_none`). -/
theorem fista_best_tracked (o : CEMObj n m) (gradO : ℝ → Vec n → Vec n → Vec n)
    (orig : Vec n) (md : Mode) :
    tracksBest (fistaCore o gradO orig md).bestDelta (fistaCore o gradO orig md).bestLoss
      (fistaCore o gradO orig md).objTrace :=
  tracksBest_runRestarts o md gradO orig (initState o) o.nSearches ⟨rfl, rfl⟩

/-- C1 counterexample: the `fista` method body (lines 65-144) contains
no `return` statement, so at this concrete input the value handed back
to the caller is Python `None` — no `Result` consisting of the best
perturbation and objective is returned; the caller must read
`best_delta`/`best_loss` off the object instead. -/
theorem fista_returns_none :
    Except.map Prod.snd (fistaPy tinyObj gradZero (0 : Vec 1) "PN") = Except.ok none := rfl

/-! ### C4: unknown mode strings -/

/-- C4 (amended): for a mode string outside {"PN", "PP"} with at least
one search and one iteration, the call does fail — but with
`UnboundLocalError` raised when line 212 reads the never-assigned
`perturbation_loss` after both mode branches fell through, not with any
dedicated invalid-configuration error: the mode is never validated. -/
theorem fista_unknown_mode_unbound (o : CEMObj n m)
    (gradO : ℝ → Vec n → Vec n → Vec n) (orig : Vec n) (ms : String)
    (hm : parseMode ms = none) (hs : o.nSearches ≠ 0) (hi : o.iterations ≠ 0) :
    fistaPy o gradO orig ms = Except.error PyErr.unboundLocalError := by
  unfold fistaPy
  rw [hm]
  simp [hs, hi]

/-- Witness for `fista_unknown_mode_unbound`: the unknown mode string
"PQ" on the tiny instance (2 searches, 1 iteration). -/
theorem fista_unknown_mode_unbound_witness :
    parseMode "PQ" = none ∧ tinyObj.nSearches ≠ 0 ∧ tinyObj.iterations ≠ 0
    ∧ fistaPy tinyObj gradZero (0 : Vec 1) "PQ" = Except.error PyErr.unboundLocalError :=
  ⟨by decide, by decide, by decide,
    fista_unknown_mode_unbound tinyObj gradZero 0 "PQ" (by decide) (by decide) (by decide)⟩

/-- C4 counterexample: at the concrete unknown mode string "PQ" the
request fails with `UnboundLocalError` — a branch fall-through artefact,
which is not an invalid-configuration error — so the claim that an
invalid-configuration error is raised is false on the code. -/
theorem unknown_mode_not_config_error :
    fistaPy tinyObj gradZero (0 : Vec 1) "PQ" = Except.error PyErr.unboundLocalError
    ∧ PyErr.unboundLocalError ≠ PyErr.invalidConfigurationError := by
  exact ⟨rfl, by decide⟩

/-! ### C10: feature_range is never consulted -/

theorem lossFn_featureRange (o : CEMObj n m) (r : ℝ × ℝ) (md : Mode) (orig y : Vec n) :
    lossFn { o with featureRange := r } md orig y = lossFn o md orig y := by
  cases o
  rfl

theorem optimisationObj_featureRange (o : CEMObj n m) (r : ℝ × ℝ) (md : Mode) (c : ℝ)
    (orig y : Vec n) :
    optimisationObj { o with featureRange := r } md c orig y
      = optimisationObj o md c orig y := by
  cases o
  rfl

theorem innerStep_featureRange (o : CEMObj n m) (r : ℝ × ℝ) (md : Mode) (p : Vec n)
    (gradO : ℝ → Vec n → Vec n → Vec n) (orig : Vec n) (st : FState n) (i : ℕ) :
    innerStep { o with featureRange := r } md p gradO orig st i
      = innerStep o md p gradO orig st i := by
  cases o
  rfl

theorem iterRun_featureRange (o : CEMObj n m) (r : ℝ × ℝ) (md : Mode) (p : Vec n)
    (gradO : ℝ → Vec n → Vec n → Vec n) (orig : Vec n) (st0 : FState n) (j : ℕ) :
    iterRun { o with featureRange := r } md p gradO orig st0 j
      = iterRun o md p gradO orig st0 j := by
  induction j with
  | zero => rfl
  | succ j ih =>
      show innerStep { o with featureRange := r } md p gradO orig
          (iterRun { o with featureRange := r } md p gradO orig st0 j) (j + 1)
        = innerStep o md p gradO orig (iterRun o md p gradO orig st0 j) (j + 1)
      rw [ih, innerStep_featureRange]

theorem innerLoop_featureRange (o : CEMObj n m) (r : ℝ × ℝ) (md : Mode)
    (gradO : ℝ → Vec n → Vec n → Vec n) (orig : Vec n) (st : FState n) :
    innerLoop { o with featureRange := r } md gradO orig st
      = innerLoop o md gradO orig st := by
  show iterRun { o with featureRange := r } md (pertSpace md orig) gradO orig st o.iterations
      = iterRun o md (pertSpace md orig) gradO orig st o.iterations
  rw [iterRun_featureRange]

theorem restartStep_featureRange (o : CEMObj n m) (r : ℝ × ℝ)
    (inner : FState n → FState n) (st : FState n) :
    restartStep { o with featureRange := r } inner st = restartStep o inner st := by
  cases o
  rfl

theorem initState_featureRange (o : CEMObj n m) (r : ℝ × ℝ) :
    initState { o with featureRange := r } = initState o := by
  cases o
  rfl

theorem runRestarts_featureRange (o : CEMObj n m) (r : ℝ × ℝ)
    (inner : FState n → FState n) (st0 : FState n) (s : ℕ) :
    runRestarts { o with featureRange := r } inner st0 s = runRestarts o inner st0 s := by
  induction s with
  | zero => rfl
  | succ s ih =>
      show restartStep { o with featureRange := r } inner
          (runRestarts { o with featureRange := r } inner st0 s)
        = restartStep o inner (runRestarts o inner st0 s)
      rw [ih, restartStep_featureRange]

theorem fistaCore_featureRange (o : CEMObj n m) (r : ℝ × ℝ)
    (gradO : ℝ → Vec n → Vec n → Vec n) (orig : Vec n) (md : Mode) :
    fistaCore { o with featureRange := r } gradO orig md = fistaCore o gradO orig md := by
  show runRestarts { o with featureRange := r }
      (innerLoop { o with featureRange := r } md gradO orig)
      (initState { o with featureRange := r }) o.nSearches
    = runRestarts o (innerLoop o md gradO orig) (initState o) o.nSearches
  rw [initState_featureRange]
  have hin : innerLoop { o with featureRange := r } md gradO orig
      = innerLoop o md gradO orig :=
    funext fun st => innerLoop_featureRange o r md gradO orig st
  rw [hin, runRestarts_featureRange]

/-- C10: two explanation runs identical except for the `feature_range`
configuration value produce identical best perturbations and best
objective values: `feature_range` is stored by `__init__` (line 57) but
never consulted anywhere in the search. -/
theorem featureRange_noninterference (o : CEMObj n m) (r : ℝ × ℝ)
    (gradO : ℝ → Vec n → Vec n → Vec n) (orig : Vec n) (md : Mode) :
    (fistaCore { o with featureRange := r } gradO orig md).bestDelta
        = (fistaCore o gradO orig md).bestDelta
    ∧ (fistaCore { o with featureRange := r } gradO orig md).bestLoss
        = (fistaCore o gradO orig md).bestLoss := by
  rw [fistaCore_featureRange]
  exact ⟨rfl, rfl⟩

end CEM
